import Mathlib

/-!
Verification of the Sankey income-statement core (classification,
aggregation, label registry, graph building) against its specification.
Monetary values are modelled as integers (the operations involved are
sums, differences and order comparisons only).
-/

set_option linter.unusedVariables false

namespace Sankey

/-- Financial category assigned to an input row. -/
inductive Category
  | Revenue
  | CostOfRevenue
  | Expense
  | Unknown
deriving DecidableEq, Repr

/-- One already-tabular input row: name, numeric value, raw type text. -/
structure Row where
  name : String
  value : Int
  rawType : String
deriving DecidableEq, Repr

/-- Bool test: is `s` a leading segment of `l`? -/
def isPre : List Char → List Char → Bool
  | [], _ => true
  | _ :: _, [] => false
  | a :: s, b :: t => a == b && isPre s t

/-- Bool test: does `sub` occur contiguously inside the second list
(Python `sub in s` substring semantics)? -/
def strHas (sub : List Char) : List Char → Bool
  | [] => isPre sub []
  | c :: t => isPre sub (c :: t) || strHas sub t

/-- Lower-case a string to its character list (Python `str.lower`). -/
def lowerChars (s : String) : List Char :=
  s.toList.map Char.toLower

/-- Keyword test used by the classifier: `kw` occurs inside `rt`. -/
def has_kw (rt : List Char) (kw : String) : Bool :=
  strHas kw.toList rt

/-- Classification of a raw type string: lower-case, then substring tests
in the branch order of the row loop (`rev`/`gelir`, then
`cog`/`cost`/`maliyet`, then `exp`/`gider`/`tax`/`vergi`, else Unknown). -/
def classify (rawType : String) : Category :=
  let rt := lowerChars rawType
  if has_kw rt "rev" || has_kw rt "gelir" then Category.Revenue
  else if has_kw rt "cog" || has_kw rt "cost" || has_kw rt "maliyet" then
    Category.CostOfRevenue
  else if has_kw rt "exp" || has_kw rt "gider" || has_kw rt "tax" ||
      has_kw rt "vergi" then Category.Expense
  else Category.Unknown

/-- The three data holders filled by the row loop: `revenue_items` and
`expense_items` are insertion-ordered dicts, `cogs_value` accumulates. -/
structure Buckets where
  revenue_items : List (String × Int)
  cogs_value : Int
  expense_items : List (String × Int)
deriving DecidableEq, Repr

/-- Python dict assignment `d[k] = v` on an insertion-ordered
association list: an existing key keeps its position and gets the new
value; a new key is appended. -/
def dict_insert (d : List (String × Int)) (k : String) (v : Int) :
    List (String × Int) :=
  if d.any (fun p => p.1 == k) then
    d.map (fun p => if p.1 == k then (k, v) else p)
  else d ++ [(k, v)]

/-- One iteration of the row loop: route the row by its classification. -/
def processRow (b : Buckets) (r : Row) : Buckets :=
  match classify r.rawType with
  | Category.Revenue =>
      { b with revenue_items := dict_insert b.revenue_items r.name r.value }
  | Category.CostOfRevenue =>
      { b with cogs_value := b.cogs_value + r.value }
  | Category.Expense =>
      { b with expense_items := dict_insert b.expense_items r.name r.value }
  | Category.Unknown => b

/-- The whole row loop, from the initial empty holders. -/
def process_rows (rows : List Row) : Buckets :=
  rows.foldl processRow ⟨[], 0, []⟩

/-- `total_revenue = sum(revenue_items.values())`. -/
def total_revenue (revenueItems : List (String × Int)) : Int :=
  (revenueItems.map Prod.snd).sum

/-- `gross_profit = total_revenue - cogs_value`. -/
def gross_profit (revenueItems : List (String × Int)) (cogsValue : Int) : Int :=
  total_revenue revenueItems - cogsValue

/-- `total_expenses = sum(expense_items.values())`. -/
def total_expenses (expenseItems : List (String × Int)) : Int :=
  (expenseItems.map Prod.snd).sum

/-- `net_income = gross_profit - total_expenses`. -/
def net_income (revenueItems : List (String × Int)) (cogsValue : Int)
    (expenseItems : List (String × Int)) : Int :=
  gross_profit revenueItems cogsValue - total_expenses expenseItems

/-- Python `labels.index(name)`: index of the first occurrence. -/
def list_index : List String → String → Nat
  | [], _ => 0
  | a :: t, n => if a = n then 0 else list_index t n + 1

/-- The label registry helper: append the name if it is new, then return
the list together with `labels.index(name)`. -/
def get_idx (labels : List String) (name : String) : List String × Nat :=
  let labels2 := if name ∈ labels then labels else labels ++ [name]
  (labels2, list_index labels2 name)

/-- A weighted directed edge between node indices. -/
structure Edge where
  sourceIndex : Nat
  targetIndex : Nat
  value : Int
deriving DecidableEq, Repr

/-- The produced graph: ordered node labels and ordered edges. -/
structure FlowGraph where
  nodes : List String
  edges : List Edge
deriving DecidableEq, Repr

/-- The four localized aggregate-node display strings. -/
structure Labels where
  total_revenue_label : String
  cogs_label : String
  gross_profit_label : String
  net_income_label : String
deriving DecidableEq, Repr

/-- The English localization table entries used for the aggregate nodes. -/
def english : Labels :=
  ⟨"Total Revenue", "Cost of Revenue (COGS)", "Gross Profit", "Net Income"⟩

/-- One iteration of the revenue-flow loop: a positive item adds an edge
item → TotalRevenue, allocating the item node on the way. -/
def rev_step (totalRevIdx : Nat) (st : List String × List Edge)
    (p : String × Int) : List String × List Edge :=
  if 0 < p.2 then
    (let q := get_idx st.1 p.1
     (q.1, st.2 ++ [⟨q.2, totalRevIdx, p.2⟩]))
  else st

/-- One iteration of the expense-flow loop: a positive item adds an edge
GrossProfit → item, allocating the item node on the way. -/
def exp_step (gpIdx : Nat) (st : List String × List Edge)
    (p : String × Int) : List String × List Edge :=
  if 0 < p.2 then
    (let q := get_idx st.1 p.1
     (q.1, st.2 ++ [⟨gpIdx, q.2, p.2⟩]))
  else st

/-- The flow-building pass: allocate the TotalRevenue node, emit revenue
edges, allocate the COGS and GrossProfit nodes, emit the conditional
COGS and GrossProfit edges, emit expense edges, and finally the
conditional NetIncome edge. -/
def build (revenueItems : List (String × Int)) (cogsValue : Int)
    (expenseItems : List (String × Int)) (t : Labels) : FlowGraph :=
  let grossProfit := gross_profit revenueItems cogsValue
  let netIncome := net_income revenueItems cogsValue expenseItems
  let p0 := get_idx [] t.total_revenue_label
  let st1 := revenueItems.foldl (rev_step p0.2) (p0.1, [])
  let p2 := get_idx st1.1 t.cogs_label
  let p3 := get_idx p2.1 t.gross_profit_label
  let es2 := if 0 < cogsValue then st1.2 ++ [⟨p0.2, p2.2, cogsValue⟩] else st1.2
  let es3 := if 0 < grossProfit then es2 ++ [⟨p0.2, p3.2, grossProfit⟩] else es2
  let st4 := expenseItems.foldl (exp_step p3.2) (p3.1, es3)
  if 0 < netIncome then
    (let p5 := get_idx st4.1 t.net_income_label
     ⟨p5.1, st4.2 ++ [⟨p3.2, p5.2, netIncome⟩]⟩)
  else
    ⟨st4.1, st4.2⟩

/-- Read an edge back as a (source label, target label, value) triple. -/
def tripleOf (ns : List String) (e : Edge) : String × String × Int :=
  (ns.getD e.sourceIndex "", ns.getD e.targetIndex "", e.value)

/-- All edges of a graph as label triples, in emission order. -/
def edgeTriples (g : FlowGraph) : List (String × String × Int) :=
  g.edges.map (tripleOf g.nodes)

/-- Spec-side description of the emitted edge list (emission steps 1-5
of the specification), as label triples. -/
def specTriples (revenueItems : List (String × Int)) (cogsValue : Int)
    (expenseItems : List (String × Int)) (t : Labels) :
    List (String × String × Int) :=
  let grossProfit := gross_profit revenueItems cogsValue
  let netIncome := net_income revenueItems cogsValue expenseItems
  ((revenueItems.filter fun p => 0 < p.2).map
      fun p => (p.1, t.total_revenue_label, p.2))
  ++ (if 0 < cogsValue then
        [(t.total_revenue_label, t.cogs_label, cogsValue)] else [])
  ++ (if 0 < grossProfit then
        [(t.total_revenue_label, t.gross_profit_label, grossProfit)] else [])
  ++ ((expenseItems.filter fun p => 0 < p.2).map
      fun p => (t.gross_profit_label, p.1, p.2))
  ++ (if 0 < netIncome then
        [(t.gross_profit_label, t.net_income_label, netIncome)] else [])

/-! ### Registry lemmas -/

lemma list_index_append_self {l : List String} {n : String} (h : n ∉ l) :
    list_index (l ++ [n]) n = l.length := by
  induction l with
  | nil => simp [list_index]
  | cons a t ih =>
    have ha : ¬ a = n := by
      intro e
      exact h (by simp [e])
    have ht : n ∉ t := fun m => h (List.mem_cons_of_mem _ m)
    simp [list_index, ha, ih ht]

lemma list_index_lt_length {l : List String} {n : String} (h : n ∈ l) :
    list_index l n < l.length := by
  induction l with
  | nil => cases h
  | cons a t ih =>
    by_cases e : a = n
    · simp [list_index, e]
    · have hm : n ∈ t := by
        rcases List.mem_cons.mp h with h1 | h1
        · exact absurd h1.symm e
        · exact h1
      simpa [list_index, e] using Nat.succ_lt_succ (ih hm)

lemma list_index_get? {l : List String} {n : String} (h : n ∈ l) :
    l.get? (list_index l n) = some n := by
  induction l with
  | nil => cases h
  | cons a t ih =>
    by_cases e : a = n
    · simp [list_index, e]
    · have hm : n ∈ t := by
        rcases List.mem_cons.mp h with h1 | h1
        · exact absurd h1.symm e
        · exact h1
      simpa [list_index, e] using ih hm

lemma get_idx_mem (l : List String) (n : String) : n ∈ (get_idx l n).1 := by
  by_cases h : n ∈ l <;> simp [get_idx, h]

lemma get_idx_extend (l : List String) (n : String) :
    ∃ s, (get_idx l n).1 = l ++ s := by
  by_cases h : n ∈ l
  · exact ⟨[], by simp [get_idx, h]⟩
  · exact ⟨[n], by simp [get_idx, h]⟩

lemma get_idx_lt (l : List String) (n : String) :
    (get_idx l n).2 < (get_idx l n).1.length :=
  list_index_lt_length (get_idx_mem l n)

lemma get_idx_get? (l : List String) (n : String) :
    (get_idx l n).1.get? (get_idx l n).2 = some n :=
  list_index_get? (get_idx_mem l n)

lemma get_idx_sub (l : List String) (n : String) :
    ∀ x ∈ (get_idx l n).1, x ∈ l ∨ x = n := by
  intro x hx
  by_cases h : n ∈ l
  · simp only [get_idx, if_pos h] at hx
    exact Or.inl hx
  · simp only [get_idx, if_neg h, List.mem_append, List.mem_singleton] at hx
    exact hx

lemma get_idx_of_mem {l : List String} {n : String} (h : n ∈ l) :
    get_idx l n = (l, list_index l n) := by
  simp [get_idx, h]

lemma get_idx_of_not_mem {l : List String} {n : String} (h : n ∉ l) :
    get_idx l n = (l ++ [n], l.length) := by
  simp [get_idx, h, list_index_append_self]

lemma getD_of_get? {l : List String} {i : Nat} {a : String}
    (h : l.get? i = some a) : l.getD i "" = a := by
  rw [List.getD_eq_getD_get?, h]
  rfl

lemma getD_append_left {l s : List String} {i : Nat} (h : i < l.length) :
    (l ++ s).getD i "" = l.getD i "" := by
  rw [List.getD_eq_getD_get?, List.getD_eq_getD_get?, List.get?_append h]

lemma get_idx_getD (l : List String) (n : String) :
    (get_idx l n).1.getD (get_idx l n).2 "" = n :=
  getD_of_get? (get_idx_get? l n)

/-! ### Fold lemmas for the two item loops -/

lemma rev_step_pos {p : String × Int} (hv : 0 < p.2) (tIdx : Nat)
    (st : List String × List Edge) :
    rev_step tIdx st p =
      ((get_idx st.1 p.1).1, st.2 ++ [⟨(get_idx st.1 p.1).2, tIdx, p.2⟩]) := by
  simp [rev_step, hv]

lemma rev_step_neg {p : String × Int} (hv : ¬ 0 < p.2) (tIdx : Nat)
    (st : List String × List Edge) : rev_step tIdx st p = st := by
  simp [rev_step, hv]

lemma exp_step_pos {p : String × Int} (hv : 0 < p.2) (gIdx : Nat)
    (st : List String × List Edge) :
    exp_step gIdx st p =
      ((get_idx st.1 p.1).1, st.2 ++ [⟨gIdx, (get_idx st.1 p.1).2, p.2⟩]) := by
  simp [exp_step, hv]

lemma exp_step_neg {p : String × Int} (hv : ¬ 0 < p.2) (gIdx : Nat)
    (st : List String × List Edge) : exp_step gIdx st p = st := by
  simp [exp_step, hv]

lemma rev_fold_spec (items : List (String × Int)) (tIdx : Nat)
    (ls : List String) (es : List Edge) :
    (∃ s, (items.foldl (rev_step tIdx) (ls, es)).1 = ls ++ s) ∧
    (∀ x ∈ (items.foldl (rev_step tIdx) (ls, es)).1,
        x ∈ ls ∨ x ∈ items.map Prod.fst) ∧
    ∃ newEs,
      (items.foldl (rev_step tIdx) (ls, es)).2 = es ++ newEs ∧
      (∀ e ∈ newEs,
          e.sourceIndex < (items.foldl (rev_step tIdx) (ls, es)).1.length ∧
          e.targetIndex = tIdx ∧ 0 < e.value) ∧
      ∀ s2, newEs.map (tripleOf ((items.foldl (rev_step tIdx) (ls, es)).1 ++ s2)) =
        (items.filter fun p => 0 < p.2).map
          (fun p =>
            (p.1, ((items.foldl (rev_step tIdx) (ls, es)).1 ++ s2).getD tIdx "",
              p.2)) := by
  induction items generalizing ls es with
  | nil =>
    refine ⟨⟨[], by simp⟩, by simp, [], by simp, by simp, by simp⟩
  | cons p rest ih =>
    by_cases hv : 0 < p.2
    · rw [List.foldl_cons, rev_step_pos hv]
      obtain ⟨⟨s, hs⟩, hmem, newEs, hne, hprop, htr⟩ :=
        ih (get_idx ls p.1).1 (es ++ [⟨(get_idx ls p.1).2, tIdx, p.2⟩])
      obtain ⟨s0, hs0⟩ := get_idx_extend ls p.1
      refine ⟨⟨s0 ++ s, by rw [hs, hs0, List.append_assoc]⟩, ?_,
        ⟨(get_idx ls p.1).2, tIdx, p.2⟩ :: newEs, ?_, ?_, ?_⟩
      · intro x hx
        rcases hmem x hx with h | h
        · rcases get_idx_sub ls p.1 x h with h1 | h1
          · exact Or.inl h1
          · exact Or.inr (by simp [h1])
        · exact Or.inr (by simp; right; simpa using h)
      · rw [hne, List.append_assoc, List.singleton_append]
      · intro e he
        rcases List.mem_cons.mp he with h | h
        · subst h
          refine ⟨?_, rfl, hv⟩

          calc (get_idx ls p.1).2 < (get_idx ls p.1).1.length :=
                get_idx_lt ls p.1
            _ ≤ ((get_idx ls p.1).1 ++ s).length := by
                simp [List.length_append]
            _ = _ := by rw [hs]
        · exact hprop e h
      · intro s2
        have hfilter :
            ((p :: rest).filter fun q => 0 < q.2) =
              p :: (rest.filter fun q => 0 < q.2) := by
          simp [List.filter_cons, hv]
        rw [hfilter, List.map_cons, List.map_cons, htr s2]
        congr 1
        have hq : (get_idx ls p.1).2 < (get_idx ls p.1).1.length :=
          get_idx_lt ls p.1
        have hL :
            ((rest.foldl (rev_step tIdx)
                ((get_idx ls p.1).1, es ++ [⟨(get_idx ls p.1).2, tIdx, p.2⟩])).1
              ++ s2) = (get_idx ls p.1).1 ++ (s ++ s2) := by
          rw [hs, List.append_assoc]
        simp only [tripleOf]
        rw [hL, getD_append_left hq, get_idx_getD]
    · rw [List.foldl_cons, rev_step_neg hv]
      obtain ⟨⟨s, hs⟩, hmem, newEs, hne, hprop, htr⟩ := ih ls es
      refine ⟨⟨s, hs⟩, ?_, newEs, hne, hprop, ?_⟩
      · intro x hx
        rcases hmem x hx with h | h
        · exact Or.inl h
        · exact Or.inr (by simp; right; simpa using h)
      · intro s2
        have hfilter :
            ((p :: rest).filter fun q => 0 < q.2) =
              rest.filter fun q => 0 < q.2 := by
          simp [List.filter_cons, hv]
        rw [hfilter, htr s2]

lemma exp_fold_spec (items : List (String × Int)) (gIdx : Nat)
    (ls : List String) (es : List Edge) :
    (∃ s, (items.foldl (exp_step gIdx) (ls, es)).1 = ls ++ s) ∧
    (∀ x ∈ (items.foldl (exp_step gIdx) (ls, es)).1,
        x ∈ ls ∨ x ∈ items.map Prod.fst) ∧
    ∃ newEs,
      (items.foldl (exp_step gIdx) (ls, es)).2 = es ++ newEs ∧
      (∀ e ∈ newEs,
          e.targetIndex < (items.foldl (exp_step gIdx) (ls, es)).1.length ∧
          e.sourceIndex = gIdx ∧ 0 < e.value) ∧
      ∀ s2, newEs.map (tripleOf ((items.foldl (exp_step gIdx) (ls, es)).1 ++ s2)) =
        (items.filter fun p => 0 < p.2).map
          (fun p =>
            (((items.foldl (exp_step gIdx) (ls, es)).1 ++ s2).getD gIdx "", p.1,
              p.2)) := by
  induction items generalizing ls es with
  | nil =>
    refine ⟨⟨[], by simp⟩, by simp, [], by simp, by simp, by simp⟩
  | cons p rest ih =>
    by_cases hv : 0 < p.2
    · rw [List.foldl_cons, exp_step_pos hv]
      obtain ⟨⟨s, hs⟩, hmem, newEs, hne, hprop, htr⟩ :=
        ih (get_idx ls p.1).1 (es ++ [⟨gIdx, (get_idx ls p.1).2, p.2⟩])
      obtain ⟨s0, hs0⟩ := get_idx_extend ls p.1
      refine ⟨⟨s0 ++ s, by rw [hs, hs0, List.append_assoc]⟩, ?_,
        ⟨gIdx, (get_idx ls p.1).2, p.2⟩ :: newEs, ?_, ?_, ?_⟩
      · intro x hx
        rcases hmem x hx with h | h
        · rcases get_idx_sub ls p.1 x h with h1 | h1
          · exact Or.inl h1
          · exact Or.inr (by simp [h1])
        · exact Or.inr (by simp; right; simpa using h)
      · rw [hne, List.append_assoc, List.singleton_append]
      · intro e he
        rcases List.mem_cons.mp he with h | h
        · subst h
          refine ⟨?_, rfl, hv⟩

          calc (get_idx ls p.1).2 < (get_idx ls p.1).1.length :=
                get_idx_lt ls p.1
            _ ≤ ((get_idx ls p.1).1 ++ s).length := by
                simp [List.length_append]
            _ = _ := by rw [hs]
        · exact hprop e h
      · intro s2
        have hfilter :
            ((p :: rest).filter fun q => 0 < q.2) =
              p :: (rest.filter fun q => 0 < q.2) := by
          simp [List.filter_cons, hv]
        rw [hfilter, List.map_cons, List.map_cons, htr s2]
        congr 1
        have hq : (get_idx ls p.1).2 < (get_idx ls p.1).1.length :=
          get_idx_lt ls p.1
        have hL :
            ((rest.foldl (exp_step gIdx)
                ((get_idx ls p.1).1, es ++ [⟨gIdx, (get_idx ls p.1).2, p.2⟩])).1
              ++ s2) = (get_idx ls p.1).1 ++ (s ++ s2) := by
          rw [hs, List.append_assoc]
        simp only [tripleOf]
        rw [hL, getD_append_left hq, get_idx_getD]
    · rw [List.foldl_cons, exp_step_neg hv]
      obtain ⟨⟨s, hs⟩, hmem, newEs, hne, hprop, htr⟩ := ih ls es
      refine ⟨⟨s, hs⟩, ?_, newEs, hne, hprop, ?_⟩
      · intro x hx
        rcases hmem x hx with h | h
        · exact Or.inl h
        · exact Or.inr (by simp; right; simpa using h)
      · intro s2
        have hfilter :
            ((p :: rest).filter fun q => 0 < q.2) =
              rest.filter fun q => 0 < q.2 := by
          simp [List.filter_cons, hv]
        rw [hfilter, htr s2]

/-! ### Stage decomposition of `build` -/

/-- Stage: allocate the TotalRevenue node. -/
def st_tr (t : Labels) : List String × Nat :=
  get_idx [] t.total_revenue_label

/-- Stage: the revenue-edge loop. -/
def st_rev (rev : List (String × Int)) (t : Labels) :
    List String × List Edge :=
  rev.foldl (rev_step (st_tr t).2) ((st_tr t).1, [])

/-- Stage: allocate the COGS node. -/
def st_cogs (rev : List (String × Int)) (t : Labels) : List String × Nat :=
  get_idx (st_rev rev t).1 t.cogs_label

/-- Stage: allocate the GrossProfit node. -/
def st_gp (rev : List (String × Int)) (t : Labels) : List String × Nat :=
  get_idx (st_cogs rev t).1 t.gross_profit_label

/-- Stage: edges after the conditional COGS edge. -/
def es_cogs (rev : List (String × Int)) (cogs : Int) (t : Labels) :
    List Edge :=
  if 0 < cogs then
    (st_rev rev t).2 ++ [⟨(st_tr t).2, (st_cogs rev t).2, cogs⟩]
  else (st_rev rev t).2

/-- Stage: edges after the conditional GrossProfit edge. -/
def es_gp (rev : List (String × Int)) (cogs : Int) (t : Labels) :
    List Edge :=
  if 0 < gross_profit rev cogs then
    es_cogs rev cogs t ++
      [⟨(st_tr t).2, (st_gp rev t).2, gross_profit rev cogs⟩]
  else es_cogs rev cogs t

/-- Stage: the expense-edge loop. -/
def st_exp (rev : List (String × Int)) (cogs : Int)
    (exp : List (String × Int)) (t : Labels) : List String × List Edge :=
  exp.foldl (exp_step (st_gp rev t).2) ((st_gp rev t).1, es_gp rev cogs t)

lemma build_eq (rev : List (String × Int)) (cogs : Int)
    (exp : List (String × Int)) (t : Labels) :
    build rev cogs exp t =
      if 0 < net_income rev cogs exp then
        ⟨(get_idx (st_exp rev cogs exp t).1 t.net_income_label).1,
         (st_exp rev cogs exp t).2 ++
           [⟨(st_gp rev t).2,
             (get_idx (st_exp rev cogs exp t).1 t.net_income_label).2,
             net_income rev cogs exp⟩]⟩
      else ⟨(st_exp rev cogs exp t).1, (st_exp rev cogs exp t).2⟩ := rfl

lemma length_le_of_append {l s L : List String} (h : L = l ++ s) :
    l.length ≤ L.length := by
  rw [h, List.length_append]
  exact Nat.le_add_right _ _

lemma append_ite (c : Prop) [Decidable c] (l : List Edge) (e : Edge) :
    (if c then l ++ [e] else l) = l ++ (if c then [e] else []) := by
  split <;> simp

lemma map_ite_singleton (c : Prop) [Decidable c]
    (f : Edge → String × String × Int) (e : Edge) :
    (if c then [e] else []).map f = if c then [f e] else [] := by
  split <;> simp

lemma st_exp_master (rev : List (String × Int)) (cogs : Int)
    (exp : List (String × Int)) (t : Labels) :
    (∀ sL, (st_exp rev cogs exp t).2.map
        (tripleOf ((st_exp rev cogs exp t).1 ++ sL)) =
      ((rev.filter fun p => 0 < p.2).map
          fun p => (p.1, t.total_revenue_label, p.2))
      ++ (if 0 < cogs then
            [(t.total_revenue_label, t.cogs_label, cogs)] else [])
      ++ (if 0 < gross_profit rev cogs then
            [(t.total_revenue_label, t.gross_profit_label,
              gross_profit rev cogs)] else [])
      ++ ((exp.filter fun p => 0 < p.2).map
          fun p => (t.gross_profit_label, p.1, p.2))) ∧
    (∀ e ∈ (st_exp rev cogs exp t).2,
        e.sourceIndex < (st_exp rev cogs exp t).1.length ∧
        e.targetIndex < (st_exp rev cogs exp t).1.length) ∧
    (st_gp rev t).2 < (st_exp rev cogs exp t).1.length ∧
    (∀ s2, ((st_exp rev cogs exp t).1 ++ s2).getD (st_gp rev t).2 "" =
        t.gross_profit_label) ∧
    (∀ x ∈ (st_exp rev cogs exp t).1,
        x = t.total_revenue_label ∨ x = t.cogs_label ∨
        x = t.gross_profit_label ∨ x ∈ rev.map Prod.fst ∨
        x ∈ exp.map Prod.fst) := by
  have eR : rev.foldl (rev_step (st_tr t).2) ((st_tr t).1, []) = st_rev rev t :=
    rfl
  obtain ⟨⟨sR, hsR⟩, hmemR, newR, hneR, hpropR, htrR⟩ :=
    rev_fold_spec rev (st_tr t).2 (st_tr t).1 []
  rw [eR] at hsR hmemR hneR hpropR htrR
  simp only [List.nil_append] at hneR
  have eX : exp.foldl (exp_step (st_gp rev t).2)
      ((st_gp rev t).1, es_gp rev cogs t) = st_exp rev cogs exp t := rfl
  obtain ⟨⟨sX, hsX⟩, hmemX, newX, hneX, hpropX, htrX⟩ :=
    exp_fold_spec exp (st_gp rev t).2 (st_gp rev t).1 (es_gp rev cogs t)
  rw [eX] at hsX hmemX hneX hpropX htrX
  obtain ⟨sC, hsC⟩ : ∃ s, (st_cogs rev t).1 = (st_rev rev t).1 ++ s :=
    get_idx_extend _ _
  obtain ⟨sG, hsG⟩ : ∃ s, (st_gp rev t).1 = (st_cogs rev t).1 ++ s :=
    get_idx_extend _ _
  have hP0 : st_tr t = ([t.total_revenue_label], (0 : Nat)) := by
    simp [st_tr, get_idx_of_not_mem]
  have hTRlt : (st_tr t).2 < (st_tr t).1.length := get_idx_lt _ _
  have hTRgetD : (st_tr t).1.getD (st_tr t).2 "" = t.total_revenue_label :=
    get_idx_getD _ _
  have hClt : (st_cogs rev t).2 < (st_cogs rev t).1.length := get_idx_lt _ _
  have hCgetD : (st_cogs rev t).1.getD (st_cogs rev t).2 "" = t.cogs_label :=
    get_idx_getD _ _
  have hGlt : (st_gp rev t).2 < (st_gp rev t).1.length := get_idx_lt _ _
  have hGgetD :
      (st_gp rev t).1.getD (st_gp rev t).2 "" = t.gross_profit_label :=
    get_idx_getD _ _
  have hTRget : ∀ s2,
      ((st_rev rev t).1 ++ s2).getD (st_tr t).2 "" = t.total_revenue_label := by
    intro s2
    rw [hsR, List.append_assoc, getD_append_left hTRlt, hTRgetD]
  have hCget : ∀ s2,
      ((st_cogs rev t).1 ++ s2).getD (st_cogs rev t).2 "" = t.cogs_label := by
    intro s2
    rw [getD_append_left hClt, hCgetD]
  have hGget : ∀ s2,
      ((st_gp rev t).1 ++ s2).getD (st_gp rev t).2 "" =
        t.gross_profit_label := by
    intro s2
    rw [getD_append_left hGlt, hGgetD]
  have hLr : ∀ sL, (st_exp rev cogs exp t).1 ++ sL =
      (st_rev rev t).1 ++ (sC ++ (sG ++ (sX ++ sL))) := by
    intro sL
    rw [hsX, hsG, hsC]
    simp [List.append_assoc]
  have hLc : ∀ sL, (st_exp rev cogs exp t).1 ++ sL =
      (st_cogs rev t).1 ++ (sG ++ (sX ++ sL)) := by
    intro sL
    rw [hsX, hsG]
    simp [List.append_assoc]
  have hLg : ∀ sL, (st_exp rev cogs exp t).1 ++ sL =
      (st_gp rev t).1 ++ (sX ++ sL) := by
    intro sL
    rw [hsX]
    simp [List.append_assoc]
  have hXget : ∀ s2, ((st_exp rev cogs exp t).1 ++ s2).getD
      (st_gp rev t).2 "" = t.gross_profit_label := by
    intro s2
    rw [hLg s2]
    exact hGget _
  have hE : (st_exp rev cogs exp t).2 =
      newR ++ ((if 0 < cogs then
          [⟨(st_tr t).2, (st_cogs rev t).2, cogs⟩] else [])
        ++ ((if 0 < gross_profit rev cogs then
          [⟨(st_tr t).2, (st_gp rev t).2, gross_profit rev cogs⟩] else [])
        ++ newX)) := by
    rw [hneX, es_gp, append_ite, es_cogs, append_ite, hneR]
    simp [List.append_assoc]
  have hlenR : (st_rev rev t).1.length ≤ (st_exp rev cogs exp t).1.length :=
    length_le_of_append ((List.append_nil _).symm.trans (hLr []))
  have hlenC : (st_cogs rev t).1.length ≤ (st_exp rev cogs exp t).1.length :=
    length_le_of_append ((List.append_nil _).symm.trans (hLc []))
  have hlenG : (st_gp rev t).1.length ≤ (st_exp rev cogs exp t).1.length :=
    length_le_of_append ((List.append_nil _).symm.trans (hLg []))
  have hTRlt2 : (st_tr t).2 < (st_exp rev cogs exp t).1.length := by
    have h1 : (st_tr t).2 < (st_rev rev t).1.length := by
      calc (st_tr t).2 < (st_tr t).1.length := hTRlt
        _ ≤ (st_rev rev t).1.length := length_le_of_append hsR
    exact lt_of_lt_of_le h1 hlenR
  have hGlt2 : (st_gp rev t).2 < (st_exp rev cogs exp t).1.length :=
    lt_of_lt_of_le hGlt hlenG
  refine ⟨?_, ?_, hGlt2, hXget, ?_⟩
  · intro sL
    have hmapR : newR.map (tripleOf ((st_exp rev cogs exp t).1 ++ sL)) =
        (rev.filter fun p => 0 < p.2).map
          fun p => (p.1, t.total_revenue_label, p.2) := by
      rw [hLr sL, htrR]
      simp only [hTRget]
    have hmapX : newX.map (tripleOf ((st_exp rev cogs exp t).1 ++ sL)) =
        (exp.filter fun p => 0 < p.2).map
          fun p => (t.gross_profit_label, p.1, p.2) := by
      rw [htrX]
      simp only [hXget]
    have hctr : tripleOf ((st_exp rev cogs exp t).1 ++ sL)
        ⟨(st_tr t).2, (st_cogs rev t).2, cogs⟩ =
        (t.total_revenue_label, t.cogs_label, cogs) := by
      have h1 : ((st_exp rev cogs exp t).1 ++ sL).getD (st_tr t).2 "" =
          t.total_revenue_label := by
        rw [hLr sL]
        exact hTRget _
      have h2 : ((st_exp rev cogs exp t).1 ++ sL).getD (st_cogs rev t).2 "" =
          t.cogs_label := by
        rw [hLc sL]
        exact hCget _
      simp only [tripleOf, h1, h2]
    have hgtr : tripleOf ((st_exp rev cogs exp t).1 ++ sL)
        ⟨(st_tr t).2, (st_gp rev t).2, gross_profit rev cogs⟩ =
        (t.total_revenue_label, t.gross_profit_label,
          gross_profit rev cogs) := by
      have h1 : ((st_exp rev cogs exp t).1 ++ sL).getD (st_tr t).2 "" =
          t.total_revenue_label := by
        rw [hLr sL]
        exact hTRget _
      simp only [tripleOf, h1, hXget sL]
    rw [hE]
    simp only [List.map_append, map_ite_singleton, hmapR, hmapX, hctr, hgtr]
    simp [List.append_assoc]
  · intro e he
    rw [hE] at he
    simp only [List.mem_append] at he
    rcases he with he | he | he | he
    · obtain ⟨h1, h2, _⟩ := hpropR e he
      refine ⟨lt_of_lt_of_le h1 hlenR, ?_⟩
      rw [h2]
      exact hTRlt2
    · revert he
      split
      · intro he
        rcases List.mem_singleton.mp he with rfl
        exact ⟨hTRlt2, lt_of_lt_of_le hClt hlenC⟩
      · intro he
        cases he
    · revert he
      split
      · intro he
        rcases List.mem_singleton.mp he with rfl
        exact ⟨hTRlt2, hGlt2⟩
      · intro he
        cases he
    · obtain ⟨h1, h2, _⟩ := hpropX e he
      refine ⟨?_, h1⟩
      rw [h2]
      exact hGlt2
  · intro x hx
    rcases hmemX x hx with hx1 | hx1
    · rcases get_idx_sub _ _ x hx1 with hx2 | hx2
      · rcases get_idx_sub _ _ x hx2 with hx3 | hx3
        · rcases hmemR x hx3 with hx4 | hx4
          · rw [hP0] at hx4
            rcases List.mem_singleton.mp hx4 with rfl
            exact Or.inl rfl
          · exact Or.inr (Or.inr (Or.inr (Or.inl hx4)))
        · exact Or.inr (Or.inl hx3)
      · exact Or.inr (Or.inr (Or.inl hx2))
    · exact Or.inr (Or.inr (Or.inr (Or.inr hx1)))

lemma build_master (rev : List (String × Int)) (cogs : Int)
    (exp : List (String × Int)) (t : Labels) :
    edgeTriples (build rev cogs exp t) = specTriples rev cogs exp t ∧
    (∀ e ∈ (build rev cogs exp t).edges,
        e.sourceIndex < (build rev cogs exp t).nodes.length ∧
        e.targetIndex < (build rev cogs exp t).nodes.length) ∧
    (∀ x ∈ (build rev cogs exp t).nodes,
        x = t.total_revenue_label ∨ x = t.cogs_label ∨
        x = t.gross_profit_label ∨ x ∈ rev.map Prod.fst ∨
        x ∈ exp.map Prod.fst ∨
        (0 < net_income rev cogs exp ∧ x = t.net_income_label)) ∧
    (0 < net_income rev cogs exp →
        t.net_income_label ∈ (build rev cogs exp t).nodes) := by
  obtain ⟨htr, hbd, hgplt, hgpget, hsub⟩ := st_exp_master rev cogs exp t
  by_cases hni : 0 < net_income rev cogs exp
  · have hb : build rev cogs exp t =
        ⟨(get_idx (st_exp rev cogs exp t).1 t.net_income_label).1,
         (st_exp rev cogs exp t).2 ++
           [⟨(st_gp rev t).2,
             (get_idx (st_exp rev cogs exp t).1 t.net_income_label).2,
             net_income rev cogs exp⟩]⟩ := by
      rw [build_eq, if_pos hni]
    obtain ⟨sN, hsN⟩ : ∃ s,
        (get_idx (st_exp rev cogs exp t).1 t.net_income_label).1 =
          (st_exp rev cogs exp t).1 ++ s := get_idx_extend _ _
    have hlenN : (st_exp rev cogs exp t).1.length ≤
        (get_idx (st_exp rev cogs exp t).1 t.net_income_label).1.length :=
      length_le_of_append hsN
    have hni_getD : ((st_exp rev cogs exp t).1 ++ sN).getD
        (get_idx (st_exp rev cogs exp t).1 t.net_income_label).2 "" =
          t.net_income_label := by
      rw [← hsN]
      exact get_idx_getD _ _
    refine ⟨?_, ?_, ?_, ?_⟩
    · rw [hb]
      dsimp only [edgeTriples]
      rw [List.map_append, hsN, htr sN, List.map_cons, List.map_nil]
      simp only [tripleOf, hgpget sN, hni_getD]
      simp only [specTriples]
      rw [if_pos hni]
    · rw [hb]
      intro e he
      dsimp only at he ⊢
      rcases List.mem_append.mp he with he | he
      · obtain ⟨h1, h2⟩ := hbd e he
        exact ⟨lt_of_lt_of_le h1 hlenN, lt_of_lt_of_le h2 hlenN⟩
      · rcases List.mem_singleton.mp he with rfl
        exact ⟨lt_of_lt_of_le hgplt hlenN, get_idx_lt _ _⟩
    · rw [hb]
      intro x hx
      dsimp only at hx
      rcases get_idx_sub _ _ x hx with h | h
      · rcases hsub x h with h1 | h1 | h1 | h1 | h1
        · exact Or.inl h1
        · exact Or.inr (Or.inl h1)
        · exact Or.inr (Or.inr (Or.inl h1))
        · exact Or.inr (Or.inr (Or.inr (Or.inl h1)))
        · exact Or.inr (Or.inr (Or.inr (Or.inr (Or.inl h1))))
      · exact Or.inr (Or.inr (Or.inr (Or.inr (Or.inr ⟨hni, h⟩))))
    · intro _
      rw [hb]
      exact get_idx_mem _ _
  · have hb : build rev cogs exp t =
        ⟨(st_exp rev cogs exp t).1, (st_exp rev cogs exp t).2⟩ := by
      rw [build_eq, if_neg hni]
    refine ⟨?_, ?_, ?_, fun h => absurd h hni⟩
    · rw [hb]
      dsimp only [edgeTriples]
      have h0 := htr []
      rw [List.append_nil] at h0
      rw [h0]
      simp only [specTriples]
      rw [if_neg hni]
      simp [List.append_assoc]
    · rw [hb]
      intro e he
      dsimp only at he ⊢
      exact hbd e he
    · rw [hb]
      intro x hx
      dsimp only at hx
      rcases hsub x hx with h1 | h1 | h1 | h1 | h1
      · exact Or.inl h1
      · exact Or.inr (Or.inl h1)
      · exact Or.inr (Or.inr (Or.inl h1))
      · exact Or.inr (Or.inr (Or.inr (Or.inl h1)))
      · exact Or.inr (Or.inr (Or.inr (Or.inr (Or.inl h1))))

/-! ### Aggregation lemmas for the row loop -/

lemma dict_insert_not_mem {d : List (String × Int)} {k : String} {v : Int}
    (h : k ∉ d.map Prod.fst) : dict_insert d k v = d ++ [(k, v)] := by
  rw [dict_insert, if_neg]
  intro hc
  obtain ⟨p, hp, hpk⟩ := List.any_eq_true.mp hc
  exact h (List.mem_map.mpr ⟨p, hp, beq_iff_eq.mp hpk⟩)

lemma cogs_fold (rows : List Row) (b : Buckets) :
    (rows.foldl processRow b).cogs_value =
      b.cogs_value +
        ((rows.filter fun r =>
            classify r.rawType = Category.CostOfRevenue).map Row.value).sum := by
  induction rows generalizing b with
  | nil => simp
  | cons r rest ih =>
    rw [List.foldl_cons]
    cases hc : classify r.rawType <;>
      simp [processRow, hc, ih, List.filter_cons, add_assoc]

lemma rev_items_fold (rows : List Row) (b : Buckets) :
    (rows.foldl processRow b).revenue_items =
      (rows.filter fun r => classify r.rawType = Category.Revenue).foldl
        (fun d r => dict_insert d r.name r.value) b.revenue_items := by
  induction rows generalizing b with
  | nil => simp
  | cons r rest ih =>
    rw [List.foldl_cons]
    cases hc : classify r.rawType <;>
      simp [processRow, hc, ih, List.filter_cons]

lemma exp_items_fold (rows : List Row) (b : Buckets) :
    (rows.foldl processRow b).expense_items =
      (rows.filter fun r => classify r.rawType = Category.Expense).foldl
        (fun d r => dict_insert d r.name r.value) b.expense_items := by
  induction rows generalizing b with
  | nil => simp
  | cons r rest ih =>
    rw [List.foldl_cons]
    cases hc : classify r.rawType <;>
      simp [processRow, hc, ih, List.filter_cons]

lemma dict_fold_sum (entries : List Row) (d : List (String × Int))
    (hnd : (entries.map Row.name).Nodup)
    (hdisj : ∀ k ∈ d.map Prod.fst, k ∉ entries.map Row.name) :
    ((entries.foldl (fun d r => dict_insert d r.name r.value) d).map
        Prod.snd).sum =
      (d.map Prod.snd).sum + (entries.map Row.value).sum := by
  induction entries generalizing d with
  | nil => simp
  | cons r rest ih =>
    rw [List.foldl_cons]
    have hkey : r.name ∉ d.map Prod.fst := by
      intro hk
      exact hdisj _ hk (by simp)
    rw [dict_insert_not_mem hkey]
    have hnd2 : r.name ∉ rest.map Row.name ∧ (rest.map Row.name).Nodup := by
      rw [List.map_cons, List.nodup_cons] at hnd
      exact hnd
    have hdisj' : ∀ k ∈ (d ++ [(r.name, r.value)]).map Prod.fst,
        k ∉ rest.map Row.name := by
      intro k hk
      rw [List.map_append] at hk
      rcases List.mem_append.mp hk with hk1 | hk1
      · intro hmem
        exact hdisj k hk1 (List.mem_cons_of_mem _ hmem)
      · rcases List.mem_singleton.mp hk1 with rfl
        exact hnd2.1
    rw [ih _ hnd2.2 hdisj']
    simp [List.map_append, add_assoc]

/-! ### Degenerate-input and registry lemmas -/

lemma rev_fold_zero (items : List (String × Int)) (tIdx : Nat)
    (st : List String × List Edge) (h : ∀ p ∈ items, p.2 = 0) :
    items.foldl (rev_step tIdx) st = st := by
  induction items generalizing st with
  | nil => rfl
  | cons p rest ih =>
    have hp : ¬ (0 : Int) < p.2 := by
      rw [h p (List.mem_cons_self _ _)]
      exact lt_irrefl 0
    rw [List.foldl_cons, rev_step_neg hp,
      ih _ (fun q hq => h q (List.mem_cons_of_mem _ hq))]

lemma exp_fold_zero (items : List (String × Int)) (gIdx : Nat)
    (st : List String × List Edge) (h : ∀ p ∈ items, p.2 = 0) :
    items.foldl (exp_step gIdx) st = st := by
  induction items generalizing st with
  | nil => rfl
  | cons p rest ih =>
    have hp : ¬ (0 : Int) < p.2 := by
      rw [h p (List.mem_cons_self _ _)]
      exact lt_irrefl 0
    rw [List.foldl_cons, exp_step_neg hp,
      ih _ (fun q hq => h q (List.mem_cons_of_mem _ hq))]

lemma get_idx_idem (l : List String) (n : String) :
    get_idx (get_idx l n).1 n = ((get_idx l n).1, (get_idx l n).2) := by
  rw [get_idx_of_mem (get_idx_mem l n)]
  rfl

/-- Feed a list of labels through the registry, recording the index
returned for each. -/
def assign_indices (names : List String) : List Nat :=
  (names.foldl
    (fun st n => ((get_idx st.1 n).1, st.2 ++ [(get_idx st.1 n).2]))
    (([] : List String), ([] : List Nat))).2

lemma assign_fold (names : List String) (ls : List String) (acc : List Nat)
    (hnd : names.Nodup) (hdisj : ∀ n ∈ names, n ∉ ls) :
    names.foldl
      (fun st n => ((get_idx st.1 n).1, st.2 ++ [(get_idx st.1 n).2]))
      (ls, acc) =
      (ls ++ names, acc ++ List.range' ls.length names.length) := by
  induction names generalizing ls acc with
  | nil => simp
  | cons n rest ih =>
    rw [List.foldl_cons]
    have hn : n ∉ ls := hdisj n (List.mem_cons_self _ _)
    have hnd2 : n ∉ rest ∧ rest.Nodup := List.nodup_cons.mp hnd
    have hdisj' : ∀ m ∈ rest, m ∉ ls ++ [n] := by
      intro m hm hc
      rcases List.mem_append.mp hc with hc1 | hc1
      · exact hdisj m (List.mem_cons_of_mem _ hm) hc1
      · rcases List.mem_singleton.mp hc1 with rfl
        exact hnd2.1 hm
    dsimp only
    rw [get_idx_of_not_mem hn, ih _ _ hnd2.2 hdisj']
    refine congrArg₂ Prod.mk ?_ ?_
    · simp
    · have hr : List.range' ls.length (rest.length + 1) =
          ls.length :: List.range' (ls.length + 1) rest.length := rfl
      simp [hr, List.length_append, List.append_assoc]

lemma bool_tf {b : Bool} (h : b = true) (h2 : b = false) : False := by
  rw [h] at h2
  exact Bool.noConfusion h2

lemma spec_triples_pos (rev : List (String × Int)) (cogs : Int)
    (exp : List (String × Int)) (t : Labels) :
    ∀ x ∈ specTriples rev cogs exp t, 0 < x.2.2 := by
  intro x hx
  simp only [specTriples, List.append_assoc, List.mem_append] at hx
  rcases hx with hx | hx | hx | hx | hx
  · obtain ⟨p, hp, rfl⟩ := List.mem_map.mp hx
    simp only [List.mem_filter, decide_eq_true_eq] at hp
    exact hp.2
  · revert hx
    split
    · intro hx
      rcases List.mem_singleton.mp hx with rfl
      assumption
    · intro hx
      cases hx
  · revert hx
    split
    · intro hx
      rcases List.mem_singleton.mp hx with rfl
      assumption
    · intro hx
      cases hx
  · obtain ⟨p, hp, rfl⟩ := List.mem_map.mp hx
    simp only [List.mem_filter, decide_eq_true_eq] at hp
    exact hp.2
  · revert hx
    split
    · intro hx
      rcases List.mem_singleton.mp hx with rfl
      assumption
    · intro hx
      cases hx

/-! ### The claims -/

/-- C1: for every input, the edges of the graph produced by `build` are
emitted in exactly the canonical order: positive revenue items (input
order) into TotalRevenue, then the conditional TotalRevenue→COGS edge,
then the conditional TotalRevenue→GrossProfit edge, then positive
expense items (input order) out of GrossProfit, then the conditional
GrossProfit→NetIncome edge; in particular Scenario A yields exactly the
six listed edges. -/
theorem claim1_edge_emission_order :
    (∀ (rev : List (String × Int)) (cogs : Int) (exp : List (String × Int))
        (t : Labels),
      edgeTriples (build rev cogs exp t) = specTriples rev cogs exp t) ∧
    edgeTriples (build [("A", 100), ("B", 50)] 60 [("R&D", 20)] english) =
      [("A", "Total Revenue", 100), ("B", "Total Revenue", 50),
       ("Total Revenue", "Cost of Revenue (COGS)", 60),
       ("Total Revenue", "Gross Profit", 90),
       ("Gross Profit", "R&D", 20), ("Gross Profit", "Net Income", 70)] :=
  ⟨fun rev cogs exp t => (build_master rev cogs exp t).1, by decide⟩

/-- C2 counterexample: with revenue {A: 30}, cost-of-revenue 50 and
expense {R&D: 20}, grossProfit = -20 ≤ 0, yet a GrossProfit→R&D edge of
value 20 is still emitted — refuting the claim that no edge originating
from the GrossProfit node appears when grossProfit ≤ 0. -/
theorem claim2_counterexample :
    gross_profit [("A", 30)] 50 ≤ 0 ∧
    ("Gross Profit", "R&D", (20 : Int)) ∈
      edgeTriples (build [("A", 30)] 50 [("R&D", 20)] english) := by
  decide

/-- C2 amended: when grossProfit ≤ 0, only the TotalRevenue→GrossProfit
edge itself is omitted; GrossProfit→expense edges are still emitted for
every expense item with positive value, and the GrossProfit→NetIncome
edge is still emitted whenever netIncome > 0. -/
theorem claim2_amended (rev : List (String × Int)) (cogs : Int)
    (exp : List (String × Int)) (t : Labels)
    (h : gross_profit rev cogs ≤ 0) :
    edgeTriples (build rev cogs exp t) =
      ((rev.filter fun p => 0 < p.2).map
          fun p => (p.1, t.total_revenue_label, p.2))
      ++ (if 0 < cogs then
            [(t.total_revenue_label, t.cogs_label, cogs)] else [])
      ++ ((exp.filter fun p => 0 < p.2).map
          fun p => (t.gross_profit_label, p.1, p.2))
      ++ (if 0 < net_income rev cogs exp then
            [(t.gross_profit_label, t.net_income_label,
              net_income rev cogs exp)] else []) := by
  rw [(build_master rev cogs exp t).1]
  simp only [specTriples]
  rw [if_neg (not_lt.mpr h)]
  simp [List.append_assoc]

theorem claim2_amended_witness :
    edgeTriples (build [("A", 30)] 50 [("R&D", 20)] english) =
      (([(("A" : String), (30 : Int))].filter fun p => 0 < p.2).map
          fun p => (p.1, english.total_revenue_label, p.2))
      ++ (if (0 : Int) < 50 then
            [(english.total_revenue_label, english.cogs_label, (50 : Int))]
          else [])
      ++ (([(("R&D" : String), (20 : Int))].filter fun p => 0 < p.2).map
          fun p => (english.gross_profit_label, p.1, p.2))
      ++ (if 0 < net_income [("A", 30)] 50 [("R&D", 20)] then
            [(english.gross_profit_label, english.net_income_label,
              net_income [("A", 30)] 50 [("R&D", 20)])] else []) :=
  claim2_amended [("A", 30)] 50 [("R&D", 20)] english (by decide)

/-- C3 counterexample: the input whose single revenue item has value 0
(cost-of-revenue 0, no expenses) produces an empty edge list but a
three-element node list — the TotalRevenue, COGS and GrossProfit nodes
are allocated unconditionally, refuting both "a node is created only
when referenced by an emitted edge" and "an all-zero input yields an
empty node list". -/
theorem claim3_counterexample :
    (build [("A", 0)] 0 [] english).edges = [] ∧
    (build [("A", 0)] 0 [] english).nodes =
      ["Total Revenue", "Cost of Revenue (COGS)", "Gross Profit"] := by
  decide

/-- C3 amended: item nodes and the NetIncome node are created only on
first reference, but the TotalRevenue, COGS and GrossProfit nodes are
allocated unconditionally; an input whose items all have value 0 with
cost-of-revenue 0 (and pairwise distinct aggregate labels) yields
exactly those three nodes and no edges. -/
theorem claim3_amended (rev exp : List (String × Int)) (t : Labels)
    (hrev : ∀ p ∈ rev, p.2 = 0) (hexp : ∀ p ∈ exp, p.2 = 0)
    (h1 : t.cogs_label ≠ t.total_revenue_label)
    (h2 : t.gross_profit_label ≠ t.total_revenue_label)
    (h3 : t.gross_profit_label ≠ t.cogs_label) :
    build rev 0 exp t =
      ⟨[t.total_revenue_label, t.cogs_label, t.gross_profit_label], []⟩ := by
  have htr0 : total_revenue rev = 0 :=
    List.sum_eq_zero (by
      intro x hx
      obtain ⟨p, hp, rfl⟩ := List.mem_map.mp hx
      exact hrev p hp)
  have hte0 : total_expenses exp = 0 :=
    List.sum_eq_zero (by
      intro x hx
      obtain ⟨p, hp, rfl⟩ := List.mem_map.mp hx
      exact hexp p hp)
  have hgp : gross_profit rev 0 = 0 := by
    rw [gross_profit, htr0]
    simp
  have hni : net_income rev 0 exp = 0 := by
    rw [net_income, hgp, hte0]
    simp
  have hstrev : st_rev rev t = ((st_tr t).1, []) :=
    rev_fold_zero rev _ _ hrev
  have h4 : st_tr t = ([t.total_revenue_label], 0) := by
    simp [st_tr, get_idx_of_not_mem]
  have h5 : st_cogs rev t = ([t.total_revenue_label, t.cogs_label], 1) := by
    have hx : (st_rev rev t).1 = [t.total_revenue_label] := by
      rw [hstrev, h4]
    simp only [st_cogs, hx]
    rw [get_idx_of_not_mem (by simp [h1])]
    rfl
  have h6 : st_gp rev t =
      ([t.total_revenue_label, t.cogs_label, t.gross_profit_label], 2) := by
    have hx : (st_cogs rev t).1 = [t.total_revenue_label, t.cogs_label] := by
      rw [h5]
    simp only [st_gp, hx]
    rw [get_idx_of_not_mem (by simp [h2, h3])]
    rfl
  have hescogs : es_cogs rev 0 t = (st_rev rev t).2 := by
    rw [es_cogs, if_neg (lt_irrefl 0)]
  have hesgp : es_gp rev 0 t = es_cogs rev 0 t := by
    rw [es_gp, hgp, if_neg (lt_irrefl 0)]
  have hstexp : st_exp rev 0 exp t = ((st_gp rev t).1, es_gp rev 0 t) :=
    exp_fold_zero exp _ _ hexp
  have hn : (st_exp rev 0 exp t).1 =
      [t.total_revenue_label, t.cogs_label, t.gross_profit_label] := by
    rw [hstexp]
    show (st_gp rev t).1 = _
    rw [h6]
  have he : (st_exp rev 0 exp t).2 = [] := by
    rw [hstexp]
    show es_gp rev 0 t = []
    rw [hesgp, hescogs, hstrev]
  rw [build_eq, if_neg (by rw [hni]; exact lt_irrefl 0), hn, he]

theorem claim3_amended_witness :
    build [("A", 0)] 0 [] english =
      ⟨[english.total_revenue_label, english.cogs_label,
        english.gross_profit_label], []⟩ :=
  claim3_amended [("A", 0)] [] english (by decide) (by decide) (by decide)
    (by decide) (by decide)

/-- C4: every edge of the output graph has strictly positive value, for
every combination of item values, cost-of-revenue, gross profit and net
income. -/
theorem claim4_positive_edge_values (rev : List (String × Int)) (cogs : Int)
    (exp : List (String × Int)) (t : Labels) :
    ∀ e ∈ (build rev cogs exp t).edges, 0 < e.value := by
  intro e he
  have h2 : tripleOf (build rev cogs exp t).nodes e ∈
      specTriples rev cogs exp t := by
    rw [← (build_master rev cogs exp t).1]
    exact List.mem_map_of_mem _ he
  have h3 := spec_triples_pos rev cogs exp t _ h2
  simpa [tripleOf] using h3

theorem claim4_witness :
    (⟨1, 0, 100⟩ : Edge) ∈ (build [("A", 100)] 0 [] english).edges ∧
    0 < (⟨1, 0, (100 : Int)⟩ : Edge).value :=
  ⟨by decide,
    claim4_positive_edge_values [("A", 100)] 0 [] english ⟨1, 0, 100⟩
      (by decide)⟩

/-- C5: every sourceIndex and targetIndex of every emitted edge is a
valid index into the output node list. -/
theorem claim5_indices_in_range (rev : List (String × Int)) (cogs : Int)
    (exp : List (String × Int)) (t : Labels) :
    ∀ e ∈ (build rev cogs exp t).edges,
      e.sourceIndex < (build rev cogs exp t).nodes.length ∧
      e.targetIndex < (build rev cogs exp t).nodes.length :=
  (build_master rev cogs exp t).2.1

theorem claim5_witness :
    (⟨1, 0, 100⟩ : Edge) ∈ (build [("A", 100)] 0 [] english).edges ∧
    (⟨1, 0, (100 : Int)⟩ : Edge).sourceIndex <
      (build [("A", 100)] 0 [] english).nodes.length ∧
    (⟨1, 0, (100 : Int)⟩ : Edge).targetIndex <
      (build [("A", 100)] 0 [] english).nodes.length :=
  ⟨by decide,
    claim5_indices_in_range [("A", 100)] 0 [] english ⟨1, 0, 100⟩ (by decide)⟩

/-- C6 counterexample: two Revenue rows that share the name "A" (values
10 and 20) produce totalRevenue 20, not the sum 30 of all
Revenue-classified values — the later row overwrites the earlier one in
the revenue dict, so the claim fails for duplicate names. -/
theorem claim6_counterexample :
    total_revenue
        (process_rows [⟨"A", 10, "rev"⟩, ⟨"A", 20, "rev"⟩]).revenue_items =
      20 ∧
    ((([⟨"A", 10, "rev"⟩, ⟨"A", 20, "rev"⟩] : List Row).filter fun r =>
        classify r.rawType = Category.Revenue).map Row.value).sum = 30 := by
  decide

/-- C6 amended: costOfRevenue always equals the sum of all
CostOfRevenue-classified values (it accumulates with `+=`), but
totalRevenue and totalExpenses equal the sums of the Revenue- and
Expense-classified values only when the names within each of those two
groups are pairwise distinct — rows repeating a name overwrite the
earlier entry of the corresponding dict. -/
theorem claim6_amended (rows : List Row)
    (hrev : ((rows.filter fun r =>
        classify r.rawType = Category.Revenue).map Row.name).Nodup)
    (hexp : ((rows.filter fun r =>
        classify r.rawType = Category.Expense).map Row.name).Nodup) :
    total_revenue (process_rows rows).revenue_items =
      ((rows.filter fun r => classify r.rawType = Category.Revenue).map
        Row.value).sum ∧
    (process_rows rows).cogs_value =
      ((rows.filter fun r => classify r.rawType = Category.CostOfRevenue).map
        Row.value).sum ∧
    total_expenses (process_rows rows).expense_items =
      ((rows.filter fun r => classify r.rawType = Category.Expense).map
        Row.value).sum := by
  refine ⟨?_, ?_, ?_⟩
  · have h := dict_fold_sum
      (rows.filter fun r => classify r.rawType = Category.Revenue) [] hrev
      (by intro k hk; simp at hk)
    simp only [total_revenue, process_rows]
    rw [rev_items_fold]
    dsimp only
    rw [h]
    simp
  · simp only [process_rows]
    rw [cogs_fold]
    dsimp only
    simp
  · have h := dict_fold_sum
      (rows.filter fun r => classify r.rawType = Category.Expense) [] hexp
      (by intro k hk; simp at hk)
    simp only [total_expenses, process_rows]
    rw [exp_items_fold]
    dsimp only
    rw [h]
    simp

theorem claim6_amended_witness :
    total_revenue
        (process_rows [⟨"A", 10, "rev"⟩, ⟨"B", 5, "cost"⟩, ⟨"C", 3, "tax"⟩]).revenue_items =
      ((([⟨"A", 10, "rev"⟩, ⟨"B", 5, "cost"⟩, ⟨"C", 3, "tax"⟩] : List Row).filter
          fun r => classify r.rawType = Category.Revenue).map Row.value).sum ∧
    (process_rows [⟨"A", 10, "rev"⟩, ⟨"B", 5, "cost"⟩, ⟨"C", 3, "tax"⟩]).cogs_value =
      ((([⟨"A", 10, "rev"⟩, ⟨"B", 5, "cost"⟩, ⟨"C", 3, "tax"⟩] : List Row).filter
          fun r => classify r.rawType = Category.CostOfRevenue).map Row.value).sum ∧
    total_expenses
        (process_rows [⟨"A", 10, "rev"⟩, ⟨"B", 5, "cost"⟩, ⟨"C", 3, "tax"⟩]).expense_items =
      ((([⟨"A", 10, "rev"⟩, ⟨"B", 5, "cost"⟩, ⟨"C", 3, "tax"⟩] : List Row).filter
          fun r => classify r.rawType = Category.Expense).map Row.value).sum :=
  claim6_amended [⟨"A", 10, "rev"⟩, ⟨"B", 5, "cost"⟩, ⟨"C", 3, "tax"⟩]
    (by decide) (by decide)

/-- C7: gross profit is exactly totalRevenue minus costOfRevenue and net
income is exactly grossProfit minus totalExpenses, for every row set,
with no clamping — both can come out negative, as the concrete loss
scenario shows. -/
theorem claim7_profit_identities (rows : List Row) :
    gross_profit (process_rows rows).revenue_items
        (process_rows rows).cogs_value =
      total_revenue (process_rows rows).revenue_items -
        (process_rows rows).cogs_value ∧
    net_income (process_rows rows).revenue_items
        (process_rows rows).cogs_value (process_rows rows).expense_items =
      gross_profit (process_rows rows).revenue_items
          (process_rows rows).cogs_value -
        total_expenses (process_rows rows).expense_items ∧
    gross_profit [("A", 30)] 50 = -20 ∧
    net_income [("A", 30)] 50 [("R&D", 20)] = -40 :=
  ⟨rfl, rfl, by decide, by decide⟩

/-- C8: the classifier lower-cases its input and tests the per-category
keyword sets in the fixed priority order Revenue, CostOfRevenue,
Expense, returning the first match and Unknown when nothing matches, so
a string matching several sets resolves to the highest-priority one. -/
theorem claim8_classifier_priority (s : String) :
    (classify s = Category.Revenue ↔
      (has_kw (lowerChars s) "rev" || has_kw (lowerChars s) "gelir") =
        true) ∧
    (classify s = Category.CostOfRevenue ↔
      ((has_kw (lowerChars s) "rev" || has_kw (lowerChars s) "gelir") =
          false ∧
        (has_kw (lowerChars s) "cog" || has_kw (lowerChars s) "cost" ||
          has_kw (lowerChars s) "maliyet") = true)) ∧
    (classify s = Category.Expense ↔
      ((has_kw (lowerChars s) "rev" || has_kw (lowerChars s) "gelir") =
          false ∧
        (has_kw (lowerChars s) "cog" || has_kw (lowerChars s) "cost" ||
          has_kw (lowerChars s) "maliyet") = false ∧
        (has_kw (lowerChars s) "exp" || has_kw (lowerChars s) "gider" ||
          has_kw (lowerChars s) "tax" || has_kw (lowerChars s) "vergi") =
          true)) ∧
    (classify s = Category.Unknown ↔
      ((has_kw (lowerChars s) "rev" || has_kw (lowerChars s) "gelir") =
          false ∧
        (has_kw (lowerChars s) "cog" || has_kw (lowerChars s) "cost" ||
          has_kw (lowerChars s) "maliyet") = false ∧
        (has_kw (lowerChars s) "exp" || has_kw (lowerChars s) "gider" ||
          has_kw (lowerChars s) "tax" || has_kw (lowerChars s) "vergi") =
          false)) := by
  simp only [classify]
  by_cases h1 : (has_kw (lowerChars s) "rev" ||
      has_kw (lowerChars s) "gelir") = true
  · rw [if_pos h1]
    exact ⟨iff_of_true rfl h1,
      iff_of_false (by decide) (fun h => bool_tf h1 h.1),
      iff_of_false (by decide) (fun h => bool_tf h1 h.1),
      iff_of_false (by decide) (fun h => bool_tf h1 h.1)⟩
  · have hf1 : (has_kw (lowerChars s) "rev" ||
        has_kw (lowerChars s) "gelir") = false := by simpa using h1
    by_cases h2 : (has_kw (lowerChars s) "cog" ||
        has_kw (lowerChars s) "cost" || has_kw (lowerChars s) "maliyet") = true
    · rw [if_neg h1, if_pos h2]
      exact ⟨iff_of_false (by decide) (fun h => bool_tf h hf1),
        iff_of_true rfl ⟨hf1, h2⟩,
        iff_of_false (by decide) (fun h => bool_tf h2 h.2.1),
        iff_of_false (by decide) (fun h => bool_tf h2 h.2.1)⟩
    · have hf2 : (has_kw (lowerChars s) "cog" ||
          has_kw (lowerChars s) "cost" ||
          has_kw (lowerChars s) "maliyet") = false := by simpa using h2
      by_cases h3 : (has_kw (lowerChars s) "exp" ||
          has_kw (lowerChars s) "gider" || has_kw (lowerChars s) "tax" ||
          has_kw (lowerChars s) "vergi") = true
      · rw [if_neg h1, if_neg h2, if_pos h3]
        exact ⟨iff_of_false (by decide) (fun h => bool_tf h hf1),
          iff_of_false (by decide) (fun h => bool_tf h.2 hf2),
          iff_of_true rfl ⟨hf1, hf2, h3⟩,
          iff_of_false (by decide) (fun h => bool_tf h3 h.2.2)⟩
      · have hf3 : (has_kw (lowerChars s) "exp" ||
            has_kw (lowerChars s) "gider" || has_kw (lowerChars s) "tax" ||
            has_kw (lowerChars s) "vergi") = false := by simpa using h3
        rw [if_neg h1, if_neg h2, if_neg h3]
        exact ⟨iff_of_false (by decide) (fun h => bool_tf h hf1),
          iff_of_false (by decide) (fun h => bool_tf h.2 hf2),
          iff_of_false (by decide) (fun h => bool_tf h.2.2 hf3),
          iff_of_true rfl ⟨hf1, hf2, hf3⟩⟩

/-- C9: the registry returns the same index when asked twice for the
same label; feeding it N pairwise distinct labels yields exactly the
indices 0..N-1 in first-seen order; and one registry is shared across
the whole `build` call, so the expense item "Tax" resolves to the same
node index (1) that the revenue item "Tax" received. -/
theorem claim9_registry (names : List String) (hnd : names.Nodup) :
    (∀ (l : List String) (n : String),
      get_idx (get_idx l n).1 n = ((get_idx l n).1, (get_idx l n).2)) ∧
    assign_indices names = List.range names.length ∧
    (build [("Tax", 100)] 20 [("Tax", 30)] english).edges.get? 0 =
      some ⟨1, 0, 100⟩ ∧
    (build [("Tax", 100)] 20 [("Tax", 30)] english).edges.get? 3 =
      some ⟨3, 1, 30⟩ := by
  refine ⟨get_idx_idem, ?_, by decide, by decide⟩
  rw [assign_indices, assign_fold names [] [] hnd (by intro n hn hc; cases hc)]
  simp [List.range_eq_range']

theorem claim9_registry_witness :
    assign_indices ["a", "b", "c"] = List.range 3 :=
  (claim9_registry ["a", "b", "c"] (by decide)).2.1

/-- C10 counterexample: a revenue item named exactly like the localized
Net Income label puts that label into the node list even though
netIncome = -100 ≤ 0, refuting the if-and-only-if. -/
theorem claim10_counterexample :
    net_income [("Net Income", 100)] 0 [("E", 200)] ≤ 0 ∧
    "Net Income" ∈
      (build [("Net Income", 100)] 0 [("E", 200)] english).nodes ∧
    english.net_income_label = "Net Income" := by
  decide

/-- C10 amended: provided the localized Net Income label differs from
the other three aggregate labels and from every input item name, it is
present in the output node list exactly when netIncome > 0. -/
theorem claim10_amended (rev : List (String × Int)) (cogs : Int)
    (exp : List (String × Int)) (t : Labels)
    (h1 : t.net_income_label ≠ t.total_revenue_label)
    (h2 : t.net_income_label ≠ t.cogs_label)
    (h3 : t.net_income_label ≠ t.gross_profit_label)
    (h4 : t.net_income_label ∉ rev.map Prod.fst)
    (h5 : t.net_income_label ∉ exp.map Prod.fst) :
    t.net_income_label ∈ (build rev cogs exp t).nodes ↔
      0 < net_income rev cogs exp := by
  constructor
  · intro hmem
    rcases (build_master rev cogs exp t).2.2.1 _ hmem with h | h | h | h | h | h
    · exact absurd h h1
    · exact absurd h h2
    · exact absurd h h3
    · exact absurd h h4
    · exact absurd h h5
    · exact h.1
  · exact fun h => (build_master rev cogs exp t).2.2.2 h

theorem claim10_amended_witness :
    english.net_income_label ∈ (build [("A", 100)] 0 [] english).nodes ↔
      0 < net_income [("A", 100)] 0 [] :=
  claim10_amended [("A", 100)] 0 [] english (by decide) (by decide)
    (by decide) (by decide) (by decide)

end Sankey
